import Mathlib

/-!
Verification of the retrieval-and-routing pipeline of the AI agent server
(`index.js`): cosine similarity, the semantic index and its confidence-gated
search, the question validator, the role classifier, the lazy knowledge-base
build, and the `/ask` request handler.

Numeric values are modelled as exact reals.  The one place where IEEE
floating point semantics is observable is division by a zero magnitude in
`cosineSimilarity` (`0/0 = NaN` in JavaScript): a similarity score is
therefore modelled as `Option ℝ`, where `none` stands for NaN.  A zero
denominator forces a zero numerator here (a zero magnitude means the whole
vector is zero, hence the dot product is zero), so NaN is the only
non-finite value the source can produce.
-/

namespace AiAgent

/-- A record of the in-memory vector store: `{ embedding, text, fileName }`
as pushed by `loadKnowledgeBase`. -/
structure Chunk where
  embedding : List ℝ
  text : String
  fileName : String

/-- A chunk together with its similarity score, as produced by the `map`
in `findRelevantChunks` (`{ ...item, score: cosineSimilarity(...) }`).
`score = none` models an IEEE NaN score. -/
structure ScoredChunk extends Chunk where
  score : Option ℝ

/-- `cosineSimilarity(vecA, vecB)` from `index.js`:
throws (`Except.error`) when the lengths differ, otherwise returns
`dot / (magA * magB)`.  The indexed `reduce` computing the dot product is
modelled by `zipWith`, which agrees with it once the length guard has
passed.  A zero denominator yields `.ok none` (the JavaScript `0/0 = NaN`;
the numerator is necessarily `0` whenever the denominator is). -/
noncomputable def cosineSimilarity (vecA vecB : List ℝ) : Except String (Option ℝ) :=
  if vecA.length ≠ vecB.length then .error "Vectors must have the same length"
  else
    let dot := (List.zipWith (fun a b => a * b) vecA vecB).foldl (· + ·) 0
    let magA := Real.sqrt (vecA.foldl (fun sum a => sum + a * a) 0)
    let magB := Real.sqrt (vecB.foldl (fun sum b => sum + b * b) 0)
    if magA * magB = 0 then .ok none else .ok (some (dot / (magA * magB)))

/-- The real number `dot(a,b) / (‖a‖·‖b‖)` computed by `cosineSimilarity`
on equal-length vectors with non-zero magnitudes. -/
noncomputable def simR (a b : List ℝ) : ℝ :=
  ((List.zipWith (fun x y => x * y) a b).foldl (· + ·) 0) /
    (Real.sqrt (a.foldl (fun s x => s + x * x) 0) *
      Real.sqrt (b.foldl (fun s x => s + x * x) 0))

/-- The sort comparator `(a, b) => b.score - a.score` of `findRelevantChunks`,
as the strict order it induces: `sortLt a b` holds when the comparator is
negative, i.e. `a` must come strictly before `b` (descending by score).
When either score is NaN the comparator evaluates to NaN, which the
ECMAScript sort treats as `0` (a tie), so `sortLt` is `false` there. -/
noncomputable def sortLt (a b : ScoredChunk) : Bool :=
  match a.score, b.score with
  | some x, some y => decide (y < x)
  | _, _ => false

/-- Stable insertion of an element into an already sorted list: the new
element is placed before the first strictly-smaller-scored element, hence
after all earlier ties — the stable order ECMAScript `Array.prototype.sort`
guarantees. -/
noncomputable def insertScored (x : ScoredChunk) : List ScoredChunk → List ScoredChunk
  | [] => [x]
  | y :: ys => if sortLt x y then x :: y :: ys else y :: insertScored x ys

/-- The stable descending sort `scored.sort((a, b) => b.score - a.score)`. -/
noncomputable def sortScored (l : List ScoredChunk) : List ScoredChunk :=
  l.foldl (fun acc x => insertScored x acc) []

/-- The confidence gate `topResults[0]?.score < threshold`: `false` when the
list is empty (`undefined < t`) or the top score is NaN (`NaN < t`), the
strict comparison otherwise. -/
noncomputable def gateBelow (top : Option ScoredChunk) (threshold : ℝ) : Bool :=
  match top with
  | some sc =>
    match sc.score with
    | some x => decide (x < threshold)
    | none => false
  | none => false

/-- `findRelevantChunks(question, topK, threshold)` from `index.js`, with the
query's embedding and the vector store passed explicitly.  Scores every
stored chunk (a length mismatch throws out of the whole call, as the
exception escapes the `map`), sorts descending, takes the first `topK`, and
returns `[]` when the top score is strictly below `threshold`. -/
noncomputable def findRelevantChunks (queryEmbedding : List ℝ) (vectorStore : List Chunk)
    (topK : Nat) (threshold : ℝ) : Except String (List ScoredChunk) := do
  let scored ← vectorStore.mapM fun item =>
    (cosineSimilarity queryEmbedding item.embedding).map
      fun s => { toChunk := item, score := s }
  let sorted := sortScored scored
  let topResults := sorted.take topK
  if gateBelow topResults.head? threshold then
    pure []
  else
    pure topResults

/-- The scored record `{ ...item, score }` produced for one stored chunk when
all magnitudes are non-zero, so that the score is the real number `simR`. -/
noncomputable def scoreChunk (q : List ℝ) (c : Chunk) : ScoredChunk :=
  { toChunk := c, score := some (simR q c.embedding) }

/-- The `agentPrompts` table of `index.js`: role label to persona instruction,
in source order (`Object.keys` enumerates in insertion order). -/
def agentPrompts : List (String × String) :=
  [("customer_support", "You are a helpful and empathetic customer support agent. ONLY answer from the given context. If the answer is not found, say: \x27will forward this to our customer agent\x27."),
   ("sales_agent", "You are a persuasive and friendly sales representative. ONLY answer from the given context. If the answer is not found, say: \x27will forward this to our sales agent\x27."),
   ("marketing_agent", "You are a creative and data-driven marketing strategist. ONLY answer from the given context. If the answer is not found, say: \x27will forward this to our marketing agent\x27."),
   ("technical_expert", "You are a precise and experienced technical expert. ONLY answer from the given context. If the answer is not found, say: \x27will forward this to our technical expert\x27."),
   ("general_info", "You are a polite and intelligent assistant helping with general queries. ONLY answer from the given context. If the answer is not found, say: \x27will forward this to our general info agent\x27.")]

/-- `Object.keys(agentPrompts)`: the five role labels. -/
def allowedRoles : List String := agentPrompts.map Prod.fst

/-- The characters removed by JavaScript `String.prototype.trim`: the ASCII
members of the ECMAScript WhiteSpace and LineTerminator sets (the exotic
Unicode space separators are not relevant to any model label). -/
def jsWhitespace (c : Char) : Bool :=
  c = ' ' || c = '\t' || c = '\n' || c = '\r' || c = '\x0b' || c = '\x0c'

/-- JavaScript `s.trim()`: drop leading and trailing whitespace. -/
def jsTrim (s : String) : String :=
  ⟨((s.data.dropWhile jsWhitespace).reverse.dropWhile jsWhitespace).reverse⟩

/-- JavaScript `s.toLowerCase()` (ASCII range, which covers every label the
pipeline compares against). -/
def jsToLower (s : String) : String := ⟨s.data.map Char.toLower⟩

/-- `classifyRole(query)` from `index.js`, as a function of the raw text the
classifier model returned (the model call itself is the external
collaborator): normalize with `trim().toLowerCase()`, return the label if it
is one of the allowed roles, `general_info` otherwise. -/
def classifyRole (modelOutput : String) : String :=
  let label := jsToLower (jsTrim modelOutput)
  if allowedRoles.contains label then label else "general_info"

/-- `validateQuestion(query)` from `index.js`, as a function of the raw text
the validation model returned: normalize with `trim().toLowerCase()` and
compare against the exact string `valid`. -/
def validateQuestion (modelOutput : String) : Bool :=
  let label := jsToLower (jsTrim modelOutput)
  label == "valid"

/-- Auxiliary for `jsReplaceFirst`: replace the first occurrence of a
character in a character list. -/
def replaceFirstChar (pat rep : Char) : List Char → List Char
  | [] => []
  | x :: xs => if x = pat then rep :: xs else x :: replaceFirstChar pat rep xs

/-- JavaScript `s.replace(pat, rep)` with a string pattern replaces only the
FIRST occurrence; at the only call site the pattern and replacement are the
single characters underscore and space
(`role.replace(\x27_\x27, \x27 \x27)`). -/
def jsReplaceFirst (s : String) (pat rep : Char) : String :=
  ⟨replaceFirstChar pat rep s.data⟩

/-- Modelled from the spec: the human-readable role label, "the role name
with its underscores replaced by spaces" (all of them).  Compared against
the source's first-occurrence `replace` on the five concrete role labels. -/
def specRoleLabel (role : String) : String :=
  ⟨role.data.map fun c => if c = '_' then ' ' else c⟩

/-- The body of the build loop of `loadKnowledgeBase` for one existing file
whose trimmed content is non-empty: split it into chunks, embed each chunk,
and produce the records pushed onto the store.  `split` models the external
`RecursiveCharacterTextSplitter.createDocuments` and `embed` the embedding
provider, both collaborators outside this file. -/
def buildFile (split : String → List String) (embed : String → List ℝ)
    (path : String) (content : String) : List Chunk :=
  (split (jsTrim content)).map fun t => { embedding := embed t, text := t, fileName := path }

/-- `loadKnowledgeBase(filePaths)` from `index.js` with the module-level
mutable `vectorStore` passed (and returned) explicitly: if the store is
already non-empty return it unchanged; otherwise, for each path that exists
(`fsys path = some content`) and whose trimmed content is non-empty, push
the embedded chunks.  Collaborator faults are outside this operation's
claim and are modelled in the request handler instead. -/
def loadKnowledgeBase (fsys : String → Option String) (split : String → List String)
    (embed : String → List ℝ) (filePaths : List String) (vectorStore : List Chunk) :
    List Chunk :=
  if vectorStore.length > 0 then vectorStore
  else
    filePaths.foldl
      (fun store path =>
        match fsys path with
        | none => store
        | some content =>
          if jsTrim content = "" then store
          else store ++ buildFile split embed path content)
      vectorStore

/-- What the `/ask` handler does with one request: either it sends exactly one
response (`status`, `body`), or the `await` rejects outside the `try` block
and the async handler function itself sends nothing (the rejection escapes
to the framework). -/
inductive Outcome where
  | response (status : Nat) (body : String)
  | noResponse
deriving DecidableEq

/-- The generic failure body sent by the handler's `catch`. -/
def errorBody : String := "❌ An error occurred."

/-- The `app.post(\x27/ask\x27)` handler of `index.js`, as a function of the
request body and of the outcome of each external call it awaits:
`validationOut` / `classifyOut` are the raw classifier-model texts (or a
thrown fault), `retrievalOut` is the combined knowledge-base load and
`findRelevantChunks` result (or a thrown fault, e.g. an embedding failure or
a dimensionality mismatch), `chatOut` is `data.message?.content` of the chat
completion (or a thrown fault).  Faithful to the source, the validation step
is awaited BEFORE the `try` block, so a fault there is not converted by the
`catch` into the 500 response: the handler ends without sending anything. -/
def askHandler (query : Option String)
    (validationOut : Except String String)
    (classifyOut : Except String String)
    (retrievalOut : Except String (List ScoredChunk))
    (chatOut : Except String (Option String)) : Outcome :=
  match query with
  | none => .response 400 "Missing query."
  | some q =>
    if q = "" then .response 400 "Missing query."
    else
      match validationOut with
      | .error _ => .noResponse
      | .ok vraw =>
        if ¬ validateQuestion vraw then
          .response 200 "Could you provide more details about your question?"
        else
          match classifyOut with
          | .error _ => .response 500 errorBody
          | .ok craw =>
            let role := classifyRole craw
            match retrievalOut with
            | .error _ => .response 500 errorBody
            | .ok relevantChunks =>
              if relevantChunks.length = 0 then
                .response 200 ("will forward this to our " ++ jsReplaceFirst role '_' ' ')
              else
                match chatOut with
                | .error _ => .response 500 errorBody
                | .ok content =>
                  .response 200 (content.getD "❌ No content returned.")

/-- C3: for every raw model output, the question validator returns `true`
exactly when the output, trimmed and lowercased, is the string `valid`;
every other output yields `false`. -/
theorem validateQuestion_iff_valid (modelOutput : String) :
    validateQuestion modelOutput = true ↔ jsToLower (jsTrim modelOutput) = "valid" := by
  simp [validateQuestion]

/-- Witness for C3: a normalization instance where the validator accepts, via
the theorem's backward direction. -/
theorem validateQuestion_iff_valid_witness :
    jsToLower (jsTrim "  Valid \n") = "valid" ∧ validateQuestion "  Valid \n" = true :=
  ⟨by decide, (validateQuestion_iff_valid "  Valid \n").mpr (by decide)⟩

/-- C4: the role classifier returns the trimmed, lowercased model output when
it is one of the five role labels and `general_info` otherwise (it is a
total function, so classification never raises); the output
`" Technical_Expert \n"` normalizes to `technical_expert`. -/
theorem classifyRole_spec (modelOutput : String) :
    (jsToLower (jsTrim modelOutput) ∈ allowedRoles →
      classifyRole modelOutput = jsToLower (jsTrim modelOutput)) ∧
    (jsToLower (jsTrim modelOutput) ∉ allowedRoles →
      classifyRole modelOutput = "general_info") ∧
    classifyRole " Technical_Expert \n" = "technical_expert" := by
  refine ⟨fun h => ?_, fun h => ?_, by decide⟩
  · unfold classifyRole
    rw [if_pos (List.elem_iff.mpr h)]
  · unfold classifyRole
    rw [if_neg (fun hc => h (List.elem_iff.mp hc))]

/-- Witness for C4 at concrete outputs: a recognized label is returned
normalized, an unrecognized one falls back to `general_info`. -/
theorem classifyRole_spec_witness :
    (jsToLower (jsTrim "  Sales_Agent ") ∈ allowedRoles ∧
      classifyRole "  Sales_Agent " = jsToLower (jsTrim "  Sales_Agent ")) ∧
    (jsToLower (jsTrim "garbled!!") ∉ allowedRoles ∧
      classifyRole "garbled!!" = "general_info") :=
  ⟨⟨by decide, (classifyRole_spec "  Sales_Agent ").1 (by decide)⟩,
    ⟨by decide, (classifyRole_spec "garbled!!").2.1 (by decide)⟩⟩

/-- C7: the similarity computation rejects every pair of vectors of unequal
length with an error rather than returning a value. -/
theorem cosineSimilarity_length_mismatch (a b : List ℝ) (h : a.length ≠ b.length) :
    cosineSimilarity a b = .error "Vectors must have the same length" := by
  unfold cosineSimilarity
  rw [if_pos h]

/-- Witness for C7 at a concrete pair of differing-length vectors. -/
theorem cosineSimilarity_length_mismatch_witness :
    ([(1 : ℝ)].length ≠ ([] : List ℝ).length) ∧
    cosineSimilarity [(1 : ℝ)] [] = .error "Vectors must have the same length" :=
  ⟨by decide, cosineSimilarity_length_mismatch _ _ (by decide)⟩

/-- C6: the knowledge-base build is idempotent — building twice from any
starting store yields exactly what building once yields — and a build on an
already non-empty store is a no-op. -/
theorem loadKnowledgeBase_idempotent (fsys : String → Option String)
    (split : String → List String) (embed : String → List ℝ)
    (paths : List String) (store : List Chunk) :
    loadKnowledgeBase fsys split embed paths (loadKnowledgeBase fsys split embed paths store)
      = loadKnowledgeBase fsys split embed paths store ∧
    (store ≠ [] → loadKnowledgeBase fsys split embed paths store = store) := by
  have key : ∀ s : List Chunk, s ≠ [] → loadKnowledgeBase fsys split embed paths s = s := by
    intro s hs
    unfold loadKnowledgeBase
    rw [if_pos (by simpa [List.length_pos] using hs)]
  refine ⟨?_, key store⟩
  by_cases hs : store = []
  · subst hs
    by_cases hb : loadKnowledgeBase fsys split embed paths [] = []
    · rw [hb]
      exact hb
    · exact key _ hb
  · rw [key store hs]
    exact key store hs

/-- Witness for C6: a non-empty store is returned unchanged. -/
theorem loadKnowledgeBase_idempotent_witness :
    ([({ embedding := [], text := "t", fileName := "f" } : Chunk)] ≠ []) ∧
    loadKnowledgeBase (fun _ => none) (fun _ => []) (fun _ => []) ["knowledge.txt"]
        [{ embedding := [], text := "t", fileName := "f" }]
      = [{ embedding := [], text := "t", fileName := "f" }] :=
  ⟨by simp, (loadKnowledgeBase_idempotent _ _ _ _ _).2 (by simp)⟩

/-- C2 counterexample: a provider fault in the validation stage does NOT
surface as the handler's generic 500 response — `validateQuestion` is
awaited before the `try` block, so the rejection escapes the `catch` and
the handler sends nothing at all. -/
theorem askHandler_validation_fault_escapes :
    askHandler (some "hi") (.error "network failure") (.ok "general_info") (.ok []) (.ok none)
      = .noResponse ∧
    (Outcome.noResponse ≠ .response 500 errorBody) :=
  ⟨rfl, by decide⟩

/-- C2 amended: a provider fault in the classification, retrieval or chat
stage surfaces as the generic 500 response, but a fault in the validation
stage escapes the handler's `try`/`catch` and no response is sent by the
handler. -/
theorem askHandler_provider_faults (q vout craw e : String)
    (r : Except String (List ScoredChunk)) (ch : Except String (Option String))
    (chunks : List ScoredChunk)
    (hq : q ≠ "") (hv : validateQuestion vout = true) (hchunks : chunks.length ≠ 0) :
    askHandler (some q) (.ok vout) (.error e) r ch = .response 500 errorBody ∧
    askHandler (some q) (.ok vout) (.ok craw) (.error e) ch = .response 500 errorBody ∧
    askHandler (some q) (.ok vout) (.ok craw) (.ok chunks) (.error e) = .response 500 errorBody ∧
    askHandler (some q) (.error e) (.ok craw) r ch = .noResponse := by
  simp [askHandler, hq, hv, hchunks]

/-- Witness for the amended C2 at concrete inputs. -/
theorem askHandler_provider_faults_witness :
    ("hi" ≠ "") ∧ validateQuestion "valid" = true ∧
    ([({ toChunk := { embedding := [], text := "t", fileName := "f" }, score := none } :
        ScoredChunk)].length ≠ 0) ∧
    askHandler (some "hi") (.ok "valid") (.error "boom") (.ok []) (.ok none)
      = .response 500 errorBody ∧
    askHandler (some "hi") (.error "boom") (.ok "x") (.ok []) (.ok none) = .noResponse :=
  ⟨by decide, by decide, by decide,
    (askHandler_provider_faults "hi" "valid" "x" "boom" (.ok []) (.ok none)
      [{ toChunk := { embedding := [], text := "t", fileName := "f" }, score := none }]
      (by decide) (by decide) (by decide)).1,
    (askHandler_provider_faults "hi" "valid" "x" "boom" (.ok []) (.ok none)
      [{ toChunk := { embedding := [], text := "t", fileName := "f" }, score := none }]
      (by decide) (by decide) (by decide)).2.2.2⟩

/-- C5: on a valid query whose classified role is any of the five labels,
an empty retrieval yields exactly the canned forwarding message with the
role's underscores replaced by spaces, independently of the chat
collaborator (no chat-model call is made on this path). -/
theorem askHandler_forwarding (q vout craw role : String)
    (hq : q ≠ "") (hv : validateQuestion vout = true)
    (hrole : role ∈ allowedRoles) (hcraw : jsToLower (jsTrim craw) = role)
    (ch : Except String (Option String)) :
    askHandler (some q) (.ok vout) (.ok craw) (.ok []) ch
      = .response 200 ("will forward this to our " ++ specRoleLabel role) := by
  have hclass : classifyRole craw = role := by
    unfold classifyRole
    rw [hcraw, if_pos (List.elem_iff.mpr hrole)]
  have hlabel : jsReplaceFirst role '_' ' ' = specRoleLabel role := by
    have h5 : role = "customer_support" ∨ role = "sales_agent" ∨ role = "marketing_agent" ∨
        role = "technical_expert" ∨ role = "general_info" := by
      simpa [allowedRoles, agentPrompts] using hrole
    rcases h5 with h | h | h | h | h <;> subst h <;> decide
  simp [askHandler, hq, hv, hclass, hlabel]

/-- Witness for C5: the spec's own example — role `sales_agent`, empty
retrieval — produces exactly `"will forward this to our sales agent"`. -/
theorem askHandler_forwarding_witness :
    ("hi" ≠ "") ∧ validateQuestion "valid" = true ∧ "sales_agent" ∈ allowedRoles ∧
    askHandler (some "hi") (.ok "valid") (.ok "sales_agent") (.ok []) (.ok none)
      = .response 200 "will forward this to our sales agent" := by
  refine ⟨by decide, by decide, by decide, ?_⟩
  have h := askHandler_forwarding "hi" "valid" "sales_agent" "sales_agent"
    (by decide) (by decide) (by decide) (by decide) (.ok none)
  rw [h]
  decide

theorem foldl_add_eq_sum (l : List ℝ) : ∀ c : ℝ, l.foldl (· + ·) c = c + l.sum := by
  induction l with
  | nil => intro c; simp
  | cons x xs ih => intro c; simp [ih]; ring

theorem foldl_sumsq_eq (l : List ℝ) :
    ∀ c : ℝ, l.foldl (fun s x => s + x * x) c = c + (l.map fun x => x * x).sum := by
  induction l with
  | nil => intro c; simp
  | cons x xs ih => intro c; simp [ih]; ring

theorem sumsq_nonneg (l : List ℝ) : 0 ≤ (l.map fun x => x * x).sum := by
  apply List.sum_nonneg
  intro y hy
  rcases List.mem_map.mp hy with ⟨x, _, rfl⟩
  exact mul_self_nonneg x

theorem sumsq_pos (l : List ℝ) (h : ∃ x ∈ l, x ≠ 0) : 0 < (l.map fun x => x * x).sum := by
  induction l with
  | nil => simp at h
  | cons y ys ih =>
    rcases h with ⟨x, hx, hxne⟩
    rcases List.mem_cons.mp hx with rfl | h2
    · simp only [List.map_cons, List.sum_cons]
      exact add_pos_of_pos_of_nonneg (mul_self_pos.mpr hxne) (sumsq_nonneg ys)
    · simp only [List.map_cons, List.sum_cons]
      exact add_pos_of_nonneg_of_pos (mul_self_nonneg y) (ih ⟨x, h2, hxne⟩)

theorem sumsq_zero (l : List ℝ) (h : ∀ x ∈ l, x = 0) : (l.map fun x => x * x).sum = 0 := by
  apply List.sum_eq_zero
  intro y hy
  rcases List.mem_map.mp hy with ⟨x, hx, rfl⟩
  rw [h x hx]
  ring

/-- C8: cosine similarity is symmetric in its two arguments for EVERY pair of
vectors — equal-length pairs (zero vectors included: NaN results coincide) as
well as mismatched-length pairs, which error identically both ways — and on
any non-zero vector paired with itself it evaluates to exactly `1`. -/
theorem cosineSimilarity_symm_self (a b : List ℝ) :
    cosineSimilarity a b = cosineSimilarity b a ∧
    ((∃ x ∈ a, x ≠ 0) → cosineSimilarity a a = .ok (some 1)) := by
  constructor
  · by_cases h : a.length = b.length
    · simp only [cosineSimilarity]
      rw [List.zipWith_comm_of_comm (fun x y => x * y) mul_comm a b, h,
        mul_comm (Real.sqrt (List.foldl (fun s x => s + x * x) 0 a))
          (Real.sqrt (List.foldl (fun s x => s + x * x) 0 b))]
    · simp only [cosineSimilarity]
      rw [if_pos h, if_pos (fun he => h he.symm)]
  · intro ha
    have hsum : List.foldl (fun s x => s + x * x) (0 : ℝ) a = (a.map fun x => x * x).sum := by
      rw [foldl_sumsq_eq, zero_add]
    have hpos : 0 < (a.map fun x => x * x).sum := sumsq_pos a ha
    simp only [cosineSimilarity, List.zipWith_same]
    rw [if_neg (by simp), hsum, Real.mul_self_sqrt hpos.le, if_neg hpos.ne',
      foldl_add_eq_sum, zero_add, div_self hpos.ne']

/-- Witness for C8 on concrete one-dimensional vectors: symmetry for a
non-zero pair and for a pair containing the zero vector, and
self-similarity `1` for a non-zero vector. -/
theorem cosineSimilarity_symm_self_witness :
    cosineSimilarity [(1 : ℝ)] [(2 : ℝ)] = cosineSimilarity [(2 : ℝ)] [(1 : ℝ)] ∧
    cosineSimilarity [(0 : ℝ)] [(2 : ℝ)] = cosineSimilarity [(2 : ℝ)] [(0 : ℝ)] ∧
    (∃ x ∈ [(1 : ℝ)], x ≠ 0) ∧ cosineSimilarity [(1 : ℝ)] [(1 : ℝ)] = .ok (some 1) :=
  ⟨(cosineSimilarity_symm_self [1] [2]).1, (cosineSimilarity_symm_self [0] [2]).1,
    ⟨1, by simp, one_ne_zero⟩, (cosineSimilarity_symm_self [1] [2]).2 ⟨1, by simp, one_ne_zero⟩⟩

theorem sortLt_asymm (x y : ScoredChunk) (h : sortLt x y = true) : sortLt y x = false := by
  cases hx : x.score with
  | none => simp [sortLt, hx] at h
  | some vx =>
    cases hy : y.score with
    | none => simp [sortLt, hx, hy] at h
    | some vy =>
      simp [sortLt, hx, hy] at h ⊢
      exact h.le

theorem sortLt_of_lt_of_not_lt (x y z : ScoredChunk) (hxy : sortLt x y = true)
    (hzy : sortLt z y = false) : sortLt z x = false := by
  cases hx : x.score with
  | none => simp [sortLt, hx] at hxy
  | some vx =>
    cases hy : y.score with
    | none => simp [sortLt, hx, hy] at hxy
    | some vy =>
      simp only [sortLt, hx, hy, decide_eq_true_eq] at hxy
      cases hz : z.score with
      | none => simp [sortLt, hz]
      | some vz =>
        simp only [sortLt, hy, hz, decide_eq_false_iff_not] at hzy
        simp only [sortLt, hx, hz, decide_eq_false_iff_not]
        intro hcon
        exact hzy (lt_trans hxy hcon)

theorem insertScored_perm (x : ScoredChunk) (l : List ScoredChunk) :
    (insertScored x l).Perm (x :: l) := by
  induction l with
  | nil => exact List.Perm.refl _
  | cons y ys ih =>
    unfold insertScored
    by_cases h : sortLt x y = true
    · rw [if_pos h]
    · rw [if_neg h]
      exact (ih.cons y).trans (List.Perm.swap x y ys)

theorem mem_insertScored (x z : ScoredChunk) (l : List ScoredChunk) :
    z ∈ insertScored x l ↔ z = x ∨ z ∈ l := by
  rw [(insertScored_perm x l).mem_iff]
  simp

theorem sortScored_perm (l : List ScoredChunk) : (sortScored l).Perm l := by
  suffices h : ∀ acc : List ScoredChunk,
      (l.foldl (fun acc x => insertScored x acc) acc).Perm (acc ++ l) by
    simpa [sortScored] using h []
  induction l with
  | nil => intro acc; simp
  | cons x xs ih =>
    intro acc
    simp only [List.foldl_cons]
    refine (ih (insertScored x acc)).trans ?_
    refine ((insertScored_perm x acc).append_right xs).trans ?_
    simpa using List.perm_middle.symm

theorem pairwise_insertScored (x : ScoredChunk) (l : List ScoredChunk)
    (h : l.Pairwise fun a b => sortLt b a = false) :
    (insertScored x l).Pairwise fun a b => sortLt b a = false := by
  induction l with
  | nil => simp [insertScored]
  | cons y ys ih =>
    rcases List.pairwise_cons.mp h with ⟨hy, hys⟩
    unfold insertScored
    by_cases hxy : sortLt x y = true
    · rw [if_pos hxy]
      refine List.pairwise_cons.mpr ⟨?_, h⟩
      intro z hz
      rcases List.mem_cons.mp hz with rfl | hz2
      · exact sortLt_asymm x z hxy
      · exact sortLt_of_lt_of_not_lt x y z hxy (hy z hz2)
    · rw [if_neg hxy]
      refine List.pairwise_cons.mpr ⟨?_, ih hys⟩
      intro z hz
      rcases (mem_insertScored x z ys).mp hz with rfl | hz2
      · simpa using hxy
      · exact hy z hz2

theorem pairwise_sortScored (l : List ScoredChunk) :
    (sortScored l).Pairwise fun a b => sortLt b a = false := by
  suffices h : ∀ acc : List ScoredChunk, (acc.Pairwise fun a b => sortLt b a = false) →
      ((l.foldl (fun acc x => insertScored x acc) acc).Pairwise fun a b => sortLt b a = false) by
    exact h [] (by simp)
  induction l with
  | nil => intro acc hacc; simpa using hacc
  | cons x xs ih =>
    intro acc hacc
    simp only [List.foldl_cons]
    exact ih _ (pairwise_insertScored x acc hacc)

theorem mapM_ok_of_forall {α β : Type} (f : α → Except String β) (g : α → β) (l : List α)
    (h : ∀ a ∈ l, f a = .ok (g a)) : l.mapM f = .ok (l.map g) := by
  induction l with
  | nil => rfl
  | cons x xs ih =>
    rw [List.mapM_cons, h x (List.mem_cons_self x xs),
      ih fun a ha => h a (List.mem_cons_of_mem x ha)]
    rfl

theorem head?_take_pos {α : Type} (l : List α) (k : Nat) (hk : 0 < k) :
    (l.take k).head? = l.head? := by
  cases l with
  | nil => simp
  | cons x xs =>
    cases k with
    | zero => exact absurd hk (lt_irrefl 0)
    | succ n => simp [List.take]

theorem cosineSimilarity_zero_any (a b : List ℝ) (hlen : a.length = b.length)
    (h0 : (∀ x ∈ a, x = 0) ∨ (∀ x ∈ b, x = 0)) : cosineSimilarity a b = .ok none := by
  have hcond : Real.sqrt (List.foldl (fun s x => s + x * x) (0 : ℝ) a) *
      Real.sqrt (List.foldl (fun s x => s + x * x) (0 : ℝ) b) = 0 := by
    rcases h0 with h | h
    · have hz : List.foldl (fun s x => s + x * x) (0 : ℝ) a = 0 := by
        rw [foldl_sumsq_eq, zero_add, sumsq_zero a h]
      rw [hz, Real.sqrt_zero, zero_mul]
    · have hz : List.foldl (fun s x => s + x * x) (0 : ℝ) b = 0 := by
        rw [foldl_sumsq_eq, zero_add, sumsq_zero b h]
      rw [hz, Real.sqrt_zero, mul_zero]
  simp only [cosineSimilarity]
  rw [if_neg fun hcon => hcon hlen, if_pos hcond]

theorem findRelevantChunks_eval (q : List ℝ) (store : List Chunk) (topK : Nat) (t : ℝ)
    (scored : List ScoredChunk)
    (hmap : store.mapM (fun item => (cosineSimilarity q item.embedding).map
        fun s => { toChunk := item, score := s }) = .ok scored) :
    findRelevantChunks q store topK t =
      if gateBelow ((sortScored scored).take topK).head? t then .ok []
      else .ok ((sortScored scored).take topK) := by
  simp only [findRelevantChunks, hmap]
  rfl

theorem cosineSimilarity_ok_some (q e : List ℝ) (hlen : e.length = q.length)
    (hq : ∃ x ∈ q, x ≠ 0) (he : ∃ x ∈ e, x ≠ 0) :
    cosineSimilarity q e = .ok (some (simR q e)) := by
  have hq' : (0 : ℝ) < (q.map fun x => x * x).sum := sumsq_pos q hq
  have he' : (0 : ℝ) < (e.map fun x => x * x).sum := sumsq_pos e he
  have hsq : List.foldl (fun s x => s + x * x) (0 : ℝ) q = (q.map fun x => x * x).sum := by
    rw [foldl_sumsq_eq, zero_add]
  have hse : List.foldl (fun s x => s + x * x) (0 : ℝ) e = (e.map fun x => x * x).sum := by
    rw [foldl_sumsq_eq, zero_add]
  have hprod : Real.sqrt (List.foldl (fun s x => s + x * x) (0 : ℝ) q) *
      Real.sqrt (List.foldl (fun s x => s + x * x) (0 : ℝ) e) ≠ 0 := by
    rw [hsq, hse]
    exact (mul_pos (Real.sqrt_pos.mpr hq') (Real.sqrt_pos.mpr he')).ne'
  simp only [cosineSimilarity, simR]
  rw [if_neg fun hcon => hcon hlen.symm, if_neg hprod]

/-- C10: a zero vector on EITHER side — the query embedding or an indexed
embedding — makes the similarity score NaN rather than an error
(`cosineSimilarity` returns `.ok none`, the unguarded `0/0`); the confidence
gate `topResults[0]?.score < threshold` is `false` on a NaN top score and on
an absent one, so it never triggers the empty-result branch there; and
end-to-end, a retrieval whose top score is NaN (zero query vector) is
returned as grounding evidence instead of being rejected. -/
theorem cosineSimilarity_zero_nan_gate (q : List ℝ) (store : List Chunk) (topK : Nat) (t : ℝ)
    (hq0 : ∀ x ∈ q, x = 0) (hlen : ∀ c ∈ store, c.embedding.length = q.length)
    (hne : store ≠ []) (hK : 0 < topK) :
    (∀ a b : List ℝ, a.length = b.length → ((∀ x ∈ a, x = 0) ∨ (∀ x ∈ b, x = 0)) →
      cosineSimilarity a b = .ok none) ∧
    (∀ sc : ScoredChunk, sc.score = none → gateBelow (some sc) t = false) ∧
    gateBelow none t = false ∧
    (∀ c ∈ store, cosineSimilarity q c.embedding = .ok none) ∧
    ∃ res, findRelevantChunks q store topK t = .ok res ∧ res ≠ [] := by
  have hcos : ∀ c ∈ store, cosineSimilarity q c.embedding = .ok none :=
    fun c hc => cosineSimilarity_zero_any q c.embedding (hlen c hc).symm (Or.inl hq0)
  refine ⟨cosineSimilarity_zero_any, fun sc hsc => by simp [gateBelow, hsc], rfl, hcos, ?_⟩
  have hmap : store.mapM (fun item => (cosineSimilarity q item.embedding).map
      fun s => ({ toChunk := item, score := s } : ScoredChunk))
      = .ok (store.map fun item => ({ toChunk := item, score := none } : ScoredChunk)) := by
    apply mapM_ok_of_forall
    intro c hc
    rw [hcos c hc]
    rfl
  have heval := findRelevantChunks_eval q store topK t _ hmap
  have hperm := sortScored_perm
    (store.map fun item => ({ toChunk := item, score := none } : ScoredChunk))
  have hlen2 : (sortScored (store.map fun item =>
      ({ toChunk := item, score := none } : ScoredChunk))).length = store.length := by
    rw [hperm.length_eq, List.length_map]
  obtain ⟨h, tl, hht⟩ : ∃ h tl, sortScored (store.map fun item =>
      ({ toChunk := item, score := none } : ScoredChunk)) = h :: tl := by
    cases hs : sortScored (store.map fun item =>
        ({ toChunk := item, score := none } : ScoredChunk)) with
    | nil =>
      rw [hs] at hlen2
      exact absurd (List.length_eq_zero.mp hlen2.symm) hne
    | cons h tl => exact ⟨h, tl, rfl⟩
  have hmem : h ∈ store.map fun item => ({ toChunk := item, score := none } : ScoredChunk) :=
    hperm.subset (hht ▸ List.mem_cons_self h tl)
  have hscore : h.score = none := by
    rcases List.mem_map.mp hmem with ⟨c, _, rfl⟩
    rfl
  have hgate : gateBelow ((sortScored (store.map fun item =>
      ({ toChunk := item, score := none } : ScoredChunk))).take topK).head? t = false := by
    rw [head?_take_pos _ _ hK, hht]
    simp [gateBelow, hscore]
  refine ⟨(sortScored (store.map fun item =>
      ({ toChunk := item, score := none } : ScoredChunk))).take topK, ?_, ?_⟩
  · rw [heval, hgate]
    simp
  rw [hht]
  cases topK with
  | zero => exact absurd hK (lt_irrefl 0)
  | succ n => simp [List.take]

/-- Witness for C10: a zero indexed embedding against a non-zero query gives
a NaN score (not a failure); and end-to-end, a one-chunk index with a zero
query vector yields a NaN top score that passes the gate, so the chunk is
returned as evidence. -/
theorem cosineSimilarity_zero_nan_gate_witness :
    (∀ x ∈ [(0 : ℝ)], x = 0) ∧
    ([({ embedding := [0], text := "t", fileName := "f" } : Chunk)] ≠ []) ∧
    cosineSimilarity [(1 : ℝ)] [(0 : ℝ)] = .ok none ∧
    (∀ c ∈ [({ embedding := [0], text := "t", fileName := "f" } : Chunk)],
      cosineSimilarity [(0 : ℝ)] c.embedding = .ok none) ∧
    ∃ res, findRelevantChunks [(0 : ℝ)]
        [({ embedding := [0], text := "t", fileName := "f" } : Chunk)] 3 0.3 = .ok res ∧
      res ≠ [] := by
  have h := cosineSimilarity_zero_nan_gate [(0 : ℝ)]
    [{ embedding := [0], text := "t", fileName := "f" }] 3 0.3
    (by simp) (by intro c hc; simp at hc; rw [hc]) (by simp) (by norm_num)
  exact ⟨by simp, by simp, h.1 [(1 : ℝ)] [(0 : ℝ)] rfl (Or.inr (by simp)),
    h.2.2.2.1, h.2.2.2.2⟩

/-- C1: for a populated index and positive `topK`, retrieval returns an empty
result exactly when the single highest cosine score is strictly below the
threshold (equivalently: when every score is); otherwise it returns
`min topK indexSize` chunks — the top of the descending order, with no
per-member filtering, so members below the threshold may be included and
only the top score gates the whole result. -/
theorem findRelevantChunks_gate (q : List ℝ) (store : List Chunk) (topK : Nat) (t : ℝ)
    (hK : 0 < topK) (hne : store ≠ [])
    (hq : ∃ x ∈ q, x ≠ 0)
    (hlen : ∀ c ∈ store, c.embedding.length = q.length)
    (hnz : ∀ c ∈ store, ∃ x ∈ c.embedding, x ≠ 0) :
    ∃ res, findRelevantChunks q store topK t = .ok res ∧
      (res = [] ↔ ∀ c ∈ store, simR q c.embedding < t) ∧
      ((∃ c ∈ store, t ≤ simR q c.embedding) →
        res.length = min topK store.length ∧
        ∃ dropped, (res ++ dropped).Perm (store.map (scoreChunk q)) ∧
          ∀ x ∈ res, ∀ y ∈ dropped, sortLt y x = false) := by
  have hmap : store.mapM (fun item => (cosineSimilarity q item.embedding).map
      fun s => ({ toChunk := item, score := s } : ScoredChunk))
      = .ok (store.map (scoreChunk q)) := by
    apply mapM_ok_of_forall
    intro c hc
    rw [cosineSimilarity_ok_some q c.embedding (hlen c hc) hq (hnz c hc)]
    rfl
  have heval := findRelevantChunks_eval q store topK t _ hmap
  have hperm := sortScored_perm (store.map (scoreChunk q))
  have hpw := pairwise_sortScored (store.map (scoreChunk q))
  have hlen2 : (sortScored (store.map (scoreChunk q))).length = store.length := by
    rw [hperm.length_eq, List.length_map]
  obtain ⟨h, tl, hht⟩ : ∃ h tl, sortScored (store.map (scoreChunk q)) = h :: tl := by
    cases hs : sortScored (store.map (scoreChunk q)) with
    | nil =>
      rw [hs] at hlen2
      exact absurd (List.length_eq_zero.mp hlen2.symm) hne
    | cons h tl => exact ⟨h, tl, rfl⟩
  have hmemh : h ∈ store.map (scoreChunk q) := hperm.subset (hht ▸ List.mem_cons_self h tl)
  obtain ⟨c0, hc0, hc0eq⟩ := List.mem_map.mp hmemh
  have hhscore : h.score = some (simR q c0.embedding) := by
    rw [← hc0eq]
    rfl
  have hmax : ∀ c ∈ store, simR q c.embedding ≤ simR q c0.embedding := by
    intro c hc
    have hzmem : scoreChunk q c ∈ sortScored (store.map (scoreChunk q)) :=
      hperm.mem_iff.mpr (List.mem_map_of_mem _ hc)
    rw [hht] at hzmem
    rcases List.mem_cons.mp hzmem with heq | htl
    · have hs := congrArg ScoredChunk.score heq
      rw [hhscore] at hs
      exact le_of_eq (Option.some.inj hs)
    · have hz := (List.pairwise_cons.mp (hht ▸ hpw)).1 _ htl
      simp only [sortLt, scoreChunk, hhscore, decide_eq_false_iff_not] at hz
      exact not_lt.mp hz
  have hheadtake : ((sortScored (store.map (scoreChunk q))).take topK).head? = some h := by
    rw [head?_take_pos _ _ hK, hht]
    rfl
  by_cases hg : simR q c0.embedding < t
  · have hgate : gateBelow ((sortScored (store.map (scoreChunk q))).take topK).head? t
        = true := by
      rw [hheadtake]
      simp [gateBelow, hhscore, hg]
    refine ⟨[], ?_, ?_, ?_⟩
    · rw [heval, hgate]
      simp
    · exact ⟨fun _ c hc => lt_of_le_of_lt (hmax c hc) hg, fun _ => rfl⟩
    · rintro ⟨c, hc, hct⟩
      exact absurd (lt_of_le_of_lt (hmax c hc) hg) (not_lt.mpr hct)
  · have hgate : gateBelow ((sortScored (store.map (scoreChunk q))).take topK).head? t
        = false := by
      rw [hheadtake]
      simp [gateBelow, hhscore, hg]
    have hresne : (sortScored (store.map (scoreChunk q))).take topK ≠ [] := by
      rw [hht]
      cases topK with
      | zero => exact absurd hK (lt_irrefl 0)
      | succ n => simp [List.take]
    refine ⟨(sortScored (store.map (scoreChunk q))).take topK, ?_, ?_, ?_⟩
    · rw [heval, hgate]
      simp
    · refine ⟨fun hnil => absurd hnil hresne, fun hall => absurd (hall c0 hc0) hg⟩
    · intro _
      refine ⟨by rw [List.length_take, hlen2], (sortScored (store.map (scoreChunk q))).drop topK,
        ?_, ?_⟩
      · rw [List.take_append_drop]
        exact hperm
      · have hpw2 : ((sortScored (store.map (scoreChunk q))).take topK ++
            (sortScored (store.map (scoreChunk q))).drop topK).Pairwise
            (fun a b => sortLt b a = false) := by
          rw [List.take_append_drop]
          exact hpw
        exact fun x hx y hy => (List.pairwise_append.mp hpw2).2.2 x hx y hy

/-- Witness for C1: a one-chunk index whose single score is `1`, threshold
`0.3`, `topK = 3` — hypotheses hold and the gate theorem applies. -/
theorem findRelevantChunks_gate_witness :
    (0 < 3) ∧
    ([({ embedding := [1], text := "t", fileName := "knowledge.txt" } : Chunk)] ≠ []) ∧
    (∃ x ∈ [(1 : ℝ)], x ≠ 0) ∧
    (∀ c ∈ [({ embedding := [1], text := "t", fileName := "knowledge.txt" } : Chunk)],
      c.embedding.length = [(1 : ℝ)].length) ∧
    (∀ c ∈ [({ embedding := [1], text := "t", fileName := "knowledge.txt" } : Chunk)],
      ∃ x ∈ c.embedding, x ≠ 0) ∧
    (∃ res, findRelevantChunks [(1 : ℝ)]
        [({ embedding := [1], text := "t", fileName := "knowledge.txt" } : Chunk)] 3 0.3
        = .ok res ∧
      (res = [] ↔ ∀ c ∈ [({ embedding := [1], text := "t", fileName := "knowledge.txt" } :
          Chunk)], simR [(1 : ℝ)] c.embedding < 0.3) ∧
      ((∃ c ∈ [({ embedding := [1], text := "t", fileName := "knowledge.txt" } : Chunk)],
          0.3 ≤ simR [(1 : ℝ)] c.embedding) →
        res.length = min 3 [({ embedding := [1], text := "t", fileName := "knowledge.txt" } :
          Chunk)].length ∧
        ∃ dropped, (res ++ dropped).Perm
            ([({ embedding := [1], text := "t", fileName := "knowledge.txt" } : Chunk)].map
              (scoreChunk [(1 : ℝ)])) ∧
          ∀ x ∈ res, ∀ y ∈ dropped, sortLt y x = false)) :=
  ⟨by norm_num, by simp, ⟨1, by simp, one_ne_zero⟩,
    by intro c hc; simp at hc; rw [hc],
    by intro c hc; simp at hc; exact ⟨1, by rw [hc]; simp, one_ne_zero⟩,
    findRelevantChunks_gate [(1 : ℝ)]
      [{ embedding := [1], text := "t", fileName := "knowledge.txt" }] 3 0.3
      (by norm_num) (by simp) ⟨1, by simp, one_ne_zero⟩
      (by intro c hc; simp at hc; rw [hc])
      (by intro c hc; simp at hc; exact ⟨1, by rw [hc]; simp, one_ne_zero⟩)⟩

end AiAgent
